import Mathlib

/-!
Verification of the `arkservers` Node module (src/arkservers.js, src/arkserverinfo.js).

The development shallowly embeds the three cooperating mechanisms of the module:

* the single-flight cache produced by `cachedUri` (the closure `cacher` together with
  the completion handlers of its backing fetch), modelled as an explicit state machine
  over per-key `CacheState`;
* the server directory (`getServerPromises` / `getServerList`), modelled over an
  environment that supplies the two external capabilities: the HTTP fetch of the
  server-list endpoint and the per-target Gamedig query (composed, as in the source,
  with the shaping of the raw result into an `ArkServerInfo` record);
* the staged resolver `getServerInfo`.

Asynchrony is modelled by making effects explicit: a fetch or query either yields a
value or an error (`Except`), and the resolver is instrumented to also return the list
of query rounds it performs, in order, so that call-count properties are statements
about that trace.
-/

namespace Arkservers

/-- `arkservers.ARK_GAME_TYPE` from src/arkservers.js. -/
def ARK_GAME_TYPE : String := "arkse"

/-- `arkservers.PORT_LIST` from src/arkservers.js: the ports queried on each host. -/
def PORT_LIST : List Nat := [27015, 27017, 27019, 27021]

/-- `arkservers.MAX_SERVER_ATTEMPTS` from src/arkservers.js. -/
def MAX_SERVER_ATTEMPTS : Nat := 3

/-- `arkservers.QUERY_SOCKET_TIMEOUT` from src/arkservers.js. -/
def QUERY_SOCKET_TIMEOUT : Nat := 1500

/-- Splitting a character list at newlines, as JavaScript `split(/\r?\n/)`: each
`'\n'` ends a piece, and a `'\r'` immediately before the `'\n'` is consumed with it.
`acc` holds the current piece's characters in reverse. -/
def splitLinesGo : List Char → List Char → List String
  | [], acc => [String.mk acc.reverse]
  | c :: rest, acc =>
    if c = '\n' then
      (match acc with
        | '\r' :: tail => String.mk tail.reverse
        | _ => String.mk acc.reverse) :: splitLinesGo rest []
    else splitLinesGo rest (c :: acc)

/-- `serverList.split(/\r?\n/)` from `getServerPromises` in src/arkservers.js. -/
def splitLines (s : String) : List String := splitLinesGo s.data []

/-- Splitting a character list at maximal whitespace runs, as JavaScript
`split(/\s+/)`: `prevWs` records whether the previous character was part of a
whitespace run (so further whitespace extends the run instead of emitting another
empty piece). -/
def splitWsGo : List Char → List Char → Bool → List String
  | [], acc, _ => [String.mk acc.reverse]
  | c :: rest, acc, prevWs =>
    if c.isWhitespace then
      if prevWs then splitWsGo rest acc prevWs
      else String.mk acc.reverse :: splitWsGo rest [] true
    else splitWsGo rest (c :: acc) false

/-- `line.split(/\s+/)` from `getServerPromises` in src/arkservers.js. -/
def splitWs (s : String) : List String := splitWsGo s.data [] false

/-- The IP-list derivation in `getServerPromises` (src/arkservers.js line 222):
`serverList.split(/\r?\n/).map(line => line.split(/\s+/)[0])`. A JavaScript
`split` result is never empty, so the `[0]` access is total; `headD` mirrors it. -/
def parseServerList (serverList : String) : List String :=
  (splitLines serverList).map (fun line => (splitWs line).headD "")

/-- The query descriptor built by `queryForHost` (src/arkservers.js lines 202-209). -/
structure GamedigQuery where
  type : String
  host : String
  port : Nat
  port_query : Nat
  maxAttempts : Nat
  socketTimeout : Nat
deriving DecidableEq, Repr

/-- `queryForHost` from src/arkservers.js. -/
def queryForHost (host : String) (port : Nat) : GamedigQuery :=
  { type := ARK_GAME_TYPE
    host := host
    port := port
    port_query := port
    maxAttempts := MAX_SERVER_ATTEMPTS
    socketTimeout := QUERY_SOCKET_TIMEOUT }

/-- A shaped per-server record (`ArkServerInfo`, src/arkserverinfo.js). Only the
`name` field participates in the core's behaviour (the resolver matches on it);
the constructor leaves it `null` when the raw Gamedig result had no name, hence
`Option String`. -/
structure ArkServerInfo where
  name : Option String
deriving DecidableEq, Repr

/-- The two external capabilities of the core, per the module's imports: the HTTP
fetch of the server-list endpoint (`fetchUri(BASE_URI, SERVER_LIST_URI)`, which
either resolves to the body text or rejects), and one live Gamedig query already
composed with `result => new ArkServerInfo(result)` (src/arkservers.js line 229),
which either resolves to a shaped record or rejects. -/
structure Env where
  fetchList : Except String String
  query : GamedigQuery → Except String ArkServerInfo

/-- The error JavaScript raises for `[].reduce((acc, val) => acc.concat(val))`. -/
def reduceEmptyError : String := "TypeError: Reduce of empty array with no initial value"

/-- `getServerPromises` (src/arkservers.js lines 219-232). `serverIPs || await ...`
uses the fetched list only when `serverIPs` is null (an explicit empty array is
truthy in JavaScript and is used as-is); likewise `ports || arkservers.PORT_LIST`.
The per-IP lists of queries are flattened by `.reduce((acc, val) => acc.concat(val))`,
which throws when the array of lists is empty. The resulting promises are modelled
as the `Except` outcomes of the per-target queries. -/
def getServerPromises (env : Env) (serverIPs : Option (List String))
    (ports : Option (List Nat)) : Except String (List (Except String ArkServerInfo)) := do
  let useServerIPs ← match serverIPs with
    | some ips => pure ips
    | none => do
      let serverList ← env.fetchList
      pure (parseServerList serverList)
  match useServerIPs.map (fun serverIP => (ports.getD PORT_LIST).map
      (fun port => queryForHost serverIP port)) with
  | [] => Except.error reduceEmptyError
  | q :: qs => pure ((qs.foldl (fun acc val => acc ++ val) q).map (fun q => env.query q))

/-- `getServerList` (src/arkservers.js lines 241-246): each per-target promise is
given a `.catch(() => null)` (here `Except.toOption`), all are awaited, and the
null results are filtered out. -/
def getServerList (env : Env) (serverIPs : Option (List String))
    (ports : Option (List Nat)) : Except String (List ArkServerInfo) := do
  let serverPromises ← getServerPromises env serverIPs ports
  let nullablePromises := serverPromises.map (fun qpromise => qpromise.toOption)
  pure (nullablePromises.filterMap id)

/-- JavaScript truthiness of the nullable string `host` hint (`!!host`,
`host ? ... : ...`): false exactly for `null` and the empty string. -/
def strTruthy : Option String → Bool
  | none => false
  | some s => !(s == "")

/-- JavaScript truthiness of the nullable number `port` hint (`!!port`,
`port ? ... : ...`): false exactly for `null` and `0`. -/
def natTruthy : Option Nat → Bool
  | none => false
  | some n => !(n == 0)

/-- `host ? [host] : null` (src/arkservers.js line 266). -/
def hostHintArg : Option String → Option (List String)
  | none => none
  | some s => if s == "" then none else some [s]

/-- `port ? [port] : null` (src/arkservers.js line 267). -/
def portHintArg : Option Nat → Option (List Nat)
  | none => none
  | some n => if n == 0 then none else some [n]

/-- The arguments of one `getServerList` round issued by the resolver: the
`serverIPs` and `ports` arguments (null meaning the defaults). -/
abbrev Round : Type := Option (List String) × Option (List Nat)

/-- The tail of `getServerInfo` (src/arkservers.js lines 287-296): the full-scan
stage guarded by `resultList.length === 0 && fallback && (!!host || !!port)`, and
the final `resultList.length > 0 ? resultList[0] : null`. `prior` is the trace of
rounds already performed. -/
def fullScanTail (env : Env) (serverName : String) (host : Option String)
    (port : Option Nat) (fallback : Bool) (resultList : List ArkServerInfo)
    (prior : List Round) : Except String (Option ArkServerInfo) × List Round :=
  if resultList.length == 0 && fallback && (strTruthy host || natTruthy port) then
    match getServerList env none none with
    | Except.error e => (Except.error e, prior ++ [((none : Option (List String)), (none : Option (List Nat)))])
    | Except.ok l =>
      let resultList := l.filter (fun info => info.name == some serverName)
      (Except.ok (if resultList.length > 0 then resultList[0]? else none),
        prior ++ [((none : Option (List String)), (none : Option (List Nat)))])
  else
    (Except.ok (if resultList.length > 0 then resultList[0]? else none), prior)

/-- `getServerInfo` (src/arkservers.js lines 259-296), instrumented: alongside the
result (the first record whose `name` equals `serverName`, or null), it returns the
ordered list of `getServerList` rounds performed. Stage 1 queries with whichever
hints are truthy; stages 2-3 (host-only, then port-only) run only when stage 1 was
empty, `fallback` holds, and both hints are truthy; the full scan runs when the
accumulated result list is still empty, `fallback` holds and at least one hint is
truthy. -/
def getServerInfoT (env : Env) (serverName : String) (host : Option String)
    (port : Option Nat) (fallback : Bool) : Except String (Option ArkServerInfo) × List Round :=
  match getServerList env (hostHintArg host) (portHintArg port) with
  | Except.error e => (Except.error e, [(hostHintArg host, portHintArg port)])
  | Except.ok l0 =>
    if (l0.filter (fun info => info.name == some serverName)).length == 0 && fallback
        && strTruthy host && natTruthy port then
      match getServerList env (some [host.getD ""]) none with
      | Except.error e =>
        (Except.error e, [(hostHintArg host, portHintArg port), (some [host.getD ""], none)])
      | Except.ok l1 =>
        if (l1.filter (fun info => info.name == some serverName)).length == 0 then
          match getServerList env none (some [port.getD 0]) with
          | Except.error e =>
            (Except.error e, [(hostHintArg host, portHintArg port),
              (some [host.getD ""], none), (none, some [port.getD 0])])
          | Except.ok l2 =>
            fullScanTail env serverName host port fallback
              (l2.filter (fun info => info.name == some serverName))
              [(hostHintArg host, portHintArg port),
                (some [host.getD ""], none), (none, some [port.getD 0])]
        else
          fullScanTail env serverName host port fallback
            (l1.filter (fun info => info.name == some serverName))
            [(hostHintArg host, portHintArg port), (some [host.getD ""], none)]
    else
      fullScanTail env serverName host port fallback
        (l0.filter (fun info => info.name == some serverName))
        [(hostHintArg host, portHintArg port)]

/-- `getServerInfo`: the result component of the instrumented resolver. -/
def getServerInfo (env : Env) (serverName : String) (host : Option String)
    (port : Option Nat) (fallback : Bool) : Except String (Option ArkServerInfo) :=
  (getServerInfoT env serverName host port fallback).1

/-! ## The single-flight cache (`cachedUri`, src/arkservers.js lines 96-123)

`cachedUri` memoizes, per `(baseUri, apiUri)` key, a closure `cacher` over the
mutable `state = (cachedValue, inProgress)`. Distinct keys have disjoint states, so
the cache is modelled per key: one `CacheState` driven by the three events that
touch it — a `cacher()` call, and the `.then` / `.catch` completion handlers of the
dispatched `fetchUri` promise. The runtime is single-threaded, so a trace of these
events is exactly an interleaving of calls and completions. -/

/-- The closure state of one `cacher` (src/arkservers.js lines 97-100). -/
structure CacheState where
  cachedValue : Option String
  inProgress : Bool
deriving DecidableEq, Repr

/-- One event touching a cache entry: a `cacher()` call, or the completion of the
outstanding fetch (successfully with the body text, or with a rejection). -/
inductive CacheEvent where
  | get
  | fetchSuccess (result : String)
  | fetchFailure
deriving DecidableEq, Repr

/-- One `cacher()` call (src/arkservers.js lines 108-122): if no value is cached
and no fetch is in progress, the in-progress flag is set and a fetch is dispatched
(third component `true`); the call returns the current `cachedValue` either way. -/
def cacherGet (state : CacheState) : CacheState × Option String × Bool :=
  if state.cachedValue = none then
    if !state.inProgress then
      ({ cachedValue := state.cachedValue, inProgress := true }, state.cachedValue, true)
    else (state, state.cachedValue, false)
  else (state, state.cachedValue, false)

/-- The fetch success handler (src/arkservers.js lines 112-114): store the result,
clear the in-progress flag. -/
def cacherThen (_state : CacheState) (result : String) : CacheState :=
  { cachedValue := some result, inProgress := false }

/-- The fetch failure handler (src/arkservers.js lines 115-118): clear the
in-progress flag, leave the cached value unchanged. -/
def cacherCatch (state : CacheState) : CacheState :=
  { cachedValue := state.cachedValue, inProgress := false }

/-- Run a trace of events against one cache entry, collecting the final state, the
values returned by the `cacher()` calls in order, and how many fetches were
dispatched. -/
def runCache : CacheState → List CacheEvent → CacheState × List (Option String) × Nat
  | state, [] => (state, [], 0)
  | state, CacheEvent.get :: rest =>
    let step := cacherGet state
    let tail := runCache step.1 rest
    (tail.1, step.2.1 :: tail.2.1, (if step.2.2 then 1 else 0) + tail.2.2)
  | state, CacheEvent.fetchSuccess result :: rest => runCache (cacherThen state result) rest
  | state, CacheEvent.fetchFailure :: rest => runCache (cacherCatch state) rest

/-! ## The staged resolver of the specification (spec §4.3) -/

/-- One resolver round followed by the name match of spec §4.3: the records of one
`getServerList` round filtered by exact equality of `name` with the requested
server name. -/
def roundMatches (env : Env) (serverName : String) (ips : Option (List String))
    (ports : Option (List Nat)) : Except String (List ArkServerInfo) :=
  (getServerList env ips ports).map (fun l => l.filter (fun info => info.name == some serverName))

/-- Modelled from the spec: the full-scan stage (spec §4.3 stage 4) of the
`ServerResolver` state machine, whose code is the tail of `getServerInfo`; it
queries the default host list and default port set and returns the first record
matching the requested name, if any. -/
def specFullScan (env : Env) (serverName : String) (prior : List Round) :
    Except String (Option ArkServerInfo) × List Round :=
  match roundMatches env serverName none none with
  | Except.error e => (Except.error e, prior ++ [((none : Option (List String)), (none : Option (List Nat)))])
  | Except.ok m => (Except.ok m.head?, prior ++ [((none : Option (List String)), (none : Option (List Nat)))])

/-- Modelled from the spec: the hinted-stage host argument (spec §4.3 stage 1) —
the singleton host hint when one was supplied (a falsy hint counting as not
supplied), otherwise the default host list (null). -/
def suppliedHosts (host : Option String) : Option (List String) :=
  if strTruthy host then some [host.getD ""] else none

/-- Modelled from the spec: the hinted-stage port argument (spec §4.3 stage 1) —
the singleton port hint when one was supplied, otherwise the default port set
(null). -/
def suppliedPorts (port : Option Nat) : Option (List Nat) :=
  if natTruthy port then some [port.getD 0] else none

/-- Modelled from the spec: the `ServerResolver` staged state machine of spec §4.3.
Stage 1 queries with whichever hints were supplied (a falsy hint counting as not
supplied) and short-circuits on a match; if it found nothing and `fallback` is
disabled, or no hint was supplied at all (stage 1 already was the full scan), the
result is absent; otherwise stage 2 (host-only) and stage 3 (port-only) run when
both hints were supplied, and stage 4 is the full scan. At each stage matching is
exact equality on `name`, and the first record of the first non-empty stage is
returned. The trace of rounds is returned alongside. -/
def specResolver (env : Env) (serverName : String) (host : Option String)
    (port : Option Nat) (fallback : Bool) : Except String (Option ArkServerInfo) × List Round :=
  match roundMatches env serverName (suppliedHosts host) (suppliedPorts port) with
  | Except.error e => (Except.error e, [(suppliedHosts host, suppliedPorts port)])
  | Except.ok m1 =>
    if m1.length > 0 then (Except.ok m1.head?, [(suppliedHosts host, suppliedPorts port)])
    else if !fallback then (Except.ok none, [(suppliedHosts host, suppliedPorts port)])
    else if !strTruthy host && !natTruthy port then
      (Except.ok none, [(suppliedHosts host, suppliedPorts port)])
    else if strTruthy host && natTruthy port then
      match roundMatches env serverName (some [host.getD ""]) none with
      | Except.error e =>
        (Except.error e, [(suppliedHosts host, suppliedPorts port), (some [host.getD ""], none)])
      | Except.ok m2 =>
        if m2.length > 0 then
          (Except.ok m2.head?,
            [(suppliedHosts host, suppliedPorts port), (some [host.getD ""], none)])
        else
          match roundMatches env serverName none (some [port.getD 0]) with
          | Except.error e =>
            (Except.error e, [(suppliedHosts host, suppliedPorts port),
              (some [host.getD ""], none), (none, some [port.getD 0])])
          | Except.ok m3 =>
            if m3.length > 0 then
              (Except.ok m3.head?, [(suppliedHosts host, suppliedPorts port),
                (some [host.getD ""], none), (none, some [port.getD 0])])
            else specFullScan env serverName [(suppliedHosts host, suppliedPorts port),
              (some [host.getD ""], none), (none, some [port.getD 0])]
    else specFullScan env serverName [(suppliedHosts host, suppliedPorts port)]

/-- The Cartesian product of an IP list and a port list, IP-major with ports in
list order: the dispatch order of the directory's targets. -/
def prodQueries (ips : List String) (ports : List Nat) : List GamedigQuery :=
  ips.flatMap (fun ip => ports.map (fun port => queryForHost ip port))

/-- A concrete environment for witnesses: the server-list fetch yields the hosts
`i1` and `i2`, and exactly the target `i2:27017` answers, with a record named `A`. -/
def envA : Env :=
  { fetchList := Except.ok "i1\ni2"
    query := fun q =>
      if q.host == "i2" && q.port == 27017 then Except.ok { name := some "A" }
      else Except.error "timeout" }

/-- A concrete environment for witnesses: the server-list fetch rejects and every
query fails. -/
def envBoom : Env :=
  { fetchList := Except.error "boom"
    query := fun _ => Except.error "timeout" }

/-! ## Theorems -/

/-- The final selection `resultList.length > 0 ? resultList[0] : null` is the head
of the list, if any. -/
theorem if_length_pos_getElem (l : List ArkServerInfo) :
    (if l.length > 0 then l[0]? else none) = l.head? := by
  cases l <;> simp

/-- `reduce((acc, val) => acc.concat(val))` over a nonempty list of lists is its
flattening. -/
theorem foldl_append_eq_flatten (ls : List (List GamedigQuery)) (x : List GamedigQuery) :
    ls.foldl (fun acc val => acc ++ val) x = x ++ ls.flatten := by
  induction ls generalizing x with
  | nil => simp
  | cons y ys ih => simp [ih, List.append_assoc]

/-- A JavaScript `split` never produces an empty array. -/
theorem splitLinesGo_ne_nil (cs : List Char) (acc : List Char) :
    splitLinesGo cs acc ≠ [] := by
  induction cs generalizing acc with
  | nil => simp [splitLinesGo]
  | cons c rest ih =>
    simp only [splitLinesGo]
    split
    · simp
    · exact ih (c :: acc)

/-- The derived IP list is never empty: splitting the fetched text yields at least
one line. -/
theorem parseServerList_ne_nil (s : String) : parseServerList s ≠ [] := by
  simp only [parseServerList, splitLines, ne_eq, List.map_eq_nil_iff]
  exact splitLinesGo_ne_nil s.data []

/-- `getServerPromises` with an explicitly supplied nonempty IP list: one query
per (ip, port) pair of the Cartesian product, in dispatch order. -/
theorem getServerPromises_supplied (env : Env) (ip : String) (ips : List String)
    (ports : Option (List Nat)) :
    getServerPromises env (some (ip :: ips)) ports =
      Except.ok ((prodQueries (ip :: ips) (ports.getD PORT_LIST)).map
        (fun q => env.query q)) := by
  simp [getServerPromises, prodQueries, foldl_append_eq_flatten, List.flatMap]
  rfl

/-- `getServerList` applied to a successful `getServerPromises` outcome: catch
each promise to an option and drop the nulls. -/
theorem getServerList_of_promises (env : Env) (serverIPs : Option (List String))
    (ports : Option (List Nat)) (l : List (Except String ArkServerInfo))
    (h : getServerPromises env serverIPs ports = Except.ok l) :
    getServerList env serverIPs ports =
      Except.ok ((l.map (fun qpromise => qpromise.toOption)).filterMap id) := by
  unfold getServerList
  rw [h]
  rfl

/-- `getServerList` with an explicitly supplied nonempty IP list: the successful
records of the Cartesian product, in dispatch order. -/
theorem getServerList_supplied (env : Env) (ip : String) (ips : List String)
    (ports : Option (List Nat)) :
    getServerList env (some (ip :: ips)) ports =
      Except.ok ((prodQueries (ip :: ips) (ports.getD PORT_LIST)).filterMap
        (fun q => (env.query q).toOption)) := by
  rw [getServerList_of_promises env _ _ _ (getServerPromises_supplied env ip ips ports),
    List.map_map, List.filterMap_map]
  rfl

/-- A null IP list with a successful server-list fetch behaves like supplying the
parsed IP list. -/
theorem getServerPromises_fetched_eq (env : Env) (s : String)
    (hs : env.fetchList = Except.ok s) (ports : Option (List Nat)) :
    getServerPromises env none ports =
      getServerPromises env (some (parseServerList s)) ports := by
  unfold getServerPromises
  rw [hs]
  rfl

/-- `getServerPromises` with a null IP list and a successful server-list fetch:
one query per (ip, port) pair over the parsed IP list. -/
theorem getServerPromises_fetched (env : Env) (s : String)
    (hs : env.fetchList = Except.ok s) (ports : Option (List Nat)) :
    getServerPromises env none ports =
      Except.ok ((prodQueries (parseServerList s) (ports.getD PORT_LIST)).map
        (fun q => env.query q)) := by
  obtain ⟨ip, ips, hp⟩ : ∃ ip ips, parseServerList s = ip :: ips := by
    cases h : parseServerList s with
    | nil => exact absurd h (parseServerList_ne_nil s)
    | cons ip ips => exact ⟨ip, ips, rfl⟩
  rw [getServerPromises_fetched_eq env s hs ports, hp, getServerPromises_supplied]

/-- `getServerList` with a null IP list and a successful server-list fetch. -/
theorem getServerList_fetched (env : Env) (s : String)
    (hs : env.fetchList = Except.ok s) (ports : Option (List Nat)) :
    getServerList env none ports =
      Except.ok ((prodQueries (parseServerList s) (ports.getD PORT_LIST)).filterMap
        (fun q => (env.query q).toOption)) := by
  rw [getServerList_of_promises env _ _ _ (getServerPromises_fetched env s hs ports),
    List.map_map, List.filterMap_map]
  rfl

/-- `getServerList` with a null IP list propagates the server-list fetch failure. -/
theorem getServerList_fetch_error (env : Env) (e : String)
    (he : env.fetchList = Except.error e) (ports : Option (List Nat)) :
    getServerList env none ports = Except.error e := by
  simp [getServerList, getServerPromises, he]
  rfl

/-- The code's stage-1 host argument (`host ? [host] : null`) is the spec's: the
hint singleton when the hint is truthy, null otherwise. -/
theorem hostHintArg_eq (host : Option String) : hostHintArg host = suppliedHosts host := by
  cases host with
  | none => rfl
  | some s =>
    by_cases h : s = "" <;> simp [hostHintArg, suppliedHosts, strTruthy, h]

/-- The code's stage-1 port argument (`port ? [port] : null`) is the spec's: the
hint singleton when the hint is truthy, null otherwise. -/
theorem portHintArg_eq (port : Option Nat) : portHintArg port = suppliedPorts port := by
  cases port with
  | none => rfl
  | some n =>
    by_cases h : n = 0 <;> simp [portHintArg, suppliedPorts, natTruthy, h]

/-- While the value is absent and a fetch is in flight, `cacher()` calls return
null, dispatch nothing, and leave the state untouched. -/
theorem runCache_pending (k : Nat) (rest : List CacheEvent) :
    runCache ⟨none, true⟩ (List.replicate k CacheEvent.get ++ rest) =
      ((runCache ⟨none, true⟩ rest).1,
        List.replicate k (none : Option String) ++ (runCache ⟨none, true⟩ rest).2.1,
        (runCache ⟨none, true⟩ rest).2.2) := by
  induction k with
  | zero => simp
  | succ k ih => simp [List.replicate_succ, runCache, cacherGet, ih]

/-- Once a value is cached, every `cacher()` call returns it and dispatches
nothing. -/
theorem runCache_cached (v : String) (ip : Bool) (k : Nat) :
    runCache ⟨some v, ip⟩ (List.replicate k CacheEvent.get) =
      (⟨some v, ip⟩, List.replicate k (some v), 0) := by
  induction k with
  | zero => simp [runCache]
  | succ k ih => simp [List.replicate_succ, runCache, cacherGet, ih]

/-- C1. Single-flight cache invariant: starting from an empty entry, a trace of
`n ≥ 1` `cacher()` calls, then the successful completion of the backing fetch with
`v`, then any number of further calls, dispatches exactly one fetch in total; the
first `n` calls all return null, and every call after completion returns `v`. -/
theorem single_flight_cache (n m : Nat) (v : String) (hn : 1 ≤ n) :
    runCache ⟨none, false⟩
        (List.replicate n CacheEvent.get ++
          CacheEvent.fetchSuccess v :: List.replicate m CacheEvent.get) =
      (⟨some v, false⟩,
        List.replicate n (none : Option String) ++ List.replicate m (some v), 1) := by
  obtain ⟨k, rfl⟩ : ∃ k, n = k + 1 := ⟨n - 1, (Nat.succ_pred_eq_of_pos hn).symm⟩
  rw [List.replicate_succ, List.cons_append]
  show runCache ⟨none, false⟩ (CacheEvent.get :: _) = _
  simp only [runCache, cacherGet]
  norm_num
  rw [runCache_pending k (CacheEvent.fetchSuccess v :: List.replicate m CacheEvent.get)]
  simp [runCache, cacherThen, runCache_cached, List.replicate_succ, List.cons_append]

/-- Witness for C1 at `n = 2`, `m = 1`, `v = "281.110"`. -/
theorem single_flight_cache_witness :
    runCache ⟨none, false⟩
        (List.replicate 2 CacheEvent.get ++
          CacheEvent.fetchSuccess "281.110" :: List.replicate 1 CacheEvent.get) =
      (⟨some "281.110", false⟩,
        List.replicate 2 (none : Option String) ++ List.replicate 1 (some "281.110"), 1) :=
  single_flight_cache 2 1 "281.110" (by decide)

/-- C4. After a failed fetch the entry's value is exactly what it was (still
absent), the in-progress flag is cleared, and the next `cacher()` call dispatches
exactly one new fetch. -/
theorem cache_retry_after_failure (s : CacheState) (hs : s.cachedValue = none) :
    cacherCatch s = ⟨s.cachedValue, false⟩ ∧
    cacherGet (cacherCatch s) = (⟨none, true⟩, none, true) := by
  refine ⟨rfl, ?_⟩
  simp [cacherCatch, cacherGet, hs]

/-- Witness for C4 at the state reached by a dispatched-then-failed fetch. -/
theorem cache_retry_after_failure_witness :
    cacherCatch ⟨none, true⟩ = (⟨none, false⟩ : CacheState) ∧
    cacherGet (cacherCatch ⟨none, true⟩) = (⟨none, true⟩, none, true) :=
  cache_retry_after_failure ⟨none, true⟩ rfl

/-- C3. Fan-out resilience: for a dispatched target set, `getServerList` returns
exactly the records of the succeeding queries (each failure is caught and
filtered out, never propagated), and if every query fails the result is the empty
list, not an error. -/
theorem fan_out_resilience (env : Env) (ip : String) (ips : List String) (ports : List Nat) :
    getServerList env (some (ip :: ips)) (some ports) =
      Except.ok ((prodQueries (ip :: ips) ports).filterMap
        (fun q => (env.query q).toOption)) ∧
    ((∀ q ∈ prodQueries (ip :: ips) ports, (env.query q).toOption = none) →
      getServerList env (some (ip :: ips)) (some ports) = Except.ok []) := by
  have h : getServerList env (some (ip :: ips)) (some ports) =
      Except.ok ((prodQueries (ip :: ips) ports).filterMap
        (fun q => (env.query q).toOption)) :=
    getServerList_supplied env ip ips (some ports)
  refine ⟨h, fun hall => ?_⟩
  rw [h]
  congr 1
  exact List.filterMap_eq_nil_iff.mpr hall

/-- Witness for C3: with every query failing, the result is the empty list. -/
theorem fan_out_resilience_witness :
    getServerList envBoom (some ["a"]) (some [1, 2]) = Except.ok [] :=
  (fan_out_resilience envBoom "a" [] [1, 2]).2 (by decide)

/-- C10. `getServerList`'s result order follows dispatch order: the
records appear in the order their targets were constructed (IP-major over the
Cartesian product, ports in list order), with failed targets removed. -/
theorem server_list_dispatch_order (env : Env) (ip : String) (ips : List String)
    (ports : List Nat) :
    getServerList env (some (ip :: ips)) (some ports) =
      Except.ok (((ip :: ips).flatMap (fun i => ports.map (fun p => queryForHost i p))).filterMap
        (fun q => (env.query q).toOption)) :=
  getServerList_supplied env ip ips (some ports)

/-- Counterexample for C8 as stated: with an explicitly supplied empty IP list the
code does not construct the empty target set — the `reduce` with no initial value
throws, so `getServerPromises` rejects. -/
theorem targets_cartesian_cex :
    getServerPromises envA (some []) (some [27015]) = Except.error reduceEmptyError ∧
    getServerPromises envA (some []) (some [27015]) ≠
      Except.ok ([] : List (Except String ArkServerInfo)) := by
  refine ⟨rfl, fun hc => ?_⟩
  have h : (Except.error reduceEmptyError : Except String (List (Except String ArkServerInfo))) =
      Except.ok [] := hc
  exact Except.noConfusion h

/-- C8 (amended). For every supplied nonempty IP list, `getServerPromises` builds
exactly one query per (ip, port) pair of the Cartesian product (IP-major; empty
port lists give the empty product), with the fixed default port list
`[27015, 27017, 27019, 27021]` when ports are not supplied. -/
theorem targets_cartesian (env : Env) (ip : String) (ips : List String) (ports : List Nat) :
    getServerPromises env (some (ip :: ips)) (some ports) =
      Except.ok (((ip :: ips).flatMap (fun i => ports.map (fun p => queryForHost i p))).map
        (fun q => env.query q)) ∧
    getServerPromises env (some (ip :: ips)) none =
      Except.ok (((ip :: ips).flatMap (fun i => PORT_LIST.map (fun p => queryForHost i p))).map
        (fun q => env.query q)) ∧
    PORT_LIST = [27015, 27017, 27019, 27021] :=
  ⟨getServerPromises_supplied env ip ips (some ports),
   getServerPromises_supplied env ip ips none, rfl⟩

/-- Counterexample for C7 as stated: a caller that explicitly supplies an empty
IP list receives a rejected operation even though the server-list fetch was never
needed. -/
theorem error_propagation_cex :
    getServerList envA (some []) none = Except.error reduceEmptyError ∧
    (getServerList envA (some []) none).isOk = false :=
  ⟨rfl, rfl⟩

/-- C6. No-hint shortcut: with neither hint supplied, `getServerInfo` performs
exactly one query round — the default full IP list with the default port list —
and returns the first record of that round matching the name; no later stage
runs, whatever the fallback flag. -/
theorem no_hint_shortcut (env : Env) (serverName : String) (fallback : Bool) :
    getServerInfoT env serverName none none fallback =
      ((getServerList env none none).map
          (fun l => (l.filter (fun info => info.name == some serverName)).head?),
        [((none : Option (List String)), (none : Option (List Nat)))]) := by
  cases h0 : getServerList env none none with
  | error e =>
    simp [getServerInfoT, hostHintArg, portHintArg, h0, Except.map]
  | ok l0 =>
    simp [getServerInfoT, hostHintArg, portHintArg, strTruthy, natTruthy, h0,
      Except.map, fullScanTail, if_length_pos_getElem]

/-- C9. Falsy hints are absent hints: an empty-string host hint or a zero port
hint makes the resolver behave exactly as if that hint had not been supplied, in
both the queries issued and the result. -/
theorem falsy_hints_are_absent (env : Env) (serverName : String) (host : Option String)
    (port : Option Nat) (fallback : Bool) :
    getServerInfoT env serverName (some "") port fallback =
      getServerInfoT env serverName none port fallback ∧
    getServerInfoT env serverName host (some 0) fallback =
      getServerInfoT env serverName host none fallback := by
  constructor
  · simp [getServerInfoT, hostHintArg, portHintArg, strTruthy, natTruthy, fullScanTail]
  · simp [getServerInfoT, hostHintArg, portHintArg, strTruthy, natTruthy, fullScanTail]

/-- Destruct a successful matched round into the underlying `getServerList`
outcome and its name filter. -/
theorem roundMatches_elim (env : Env) (serverName : String) (ips : Option (List String))
    (ports : Option (List Nat)) (m : List ArkServerInfo)
    (h : roundMatches env serverName ips ports = Except.ok m) :
    ∃ l, getServerList env ips ports = Except.ok l ∧
      l.filter (fun info => info.name == some serverName) = m := by
  unfold roundMatches at h
  cases hg : getServerList env ips ports with
  | error e => rw [hg] at h; exact absurd h (by simp [Except.map])
  | ok l => rw [hg] at h; exact ⟨l, rfl, by simpa [Except.map] using h⟩

/-- C2. Resolver fallback completeness: when no query against the hinted host or
the hinted port yields a record with the requested name (stages 1-3 all match
nothing) but the default full scan does, `getServerInfo` with `fallback = true`
returns the full scan's first matching record, with `fallback = false` it returns
null, and neither call errors. -/
theorem resolver_fallback_completeness (env : Env) (serverName hHost : String) (hPort : Nat)
    (r : ArkServerInfo) (rs : List ArkServerInfo)
    (hh : hHost ≠ "") (hp : hPort ≠ 0)
    (h1 : roundMatches env serverName (some [hHost]) (some [hPort]) = Except.ok [])
    (h2 : roundMatches env serverName (some [hHost]) none = Except.ok [])
    (h3 : roundMatches env serverName none (some [hPort]) = Except.ok [])
    (h4 : roundMatches env serverName none none = Except.ok (r :: rs)) :
    getServerInfo env serverName (some hHost) (some hPort) true = Except.ok (some r) ∧
    getServerInfo env serverName (some hHost) (some hPort) false = Except.ok none := by
  obtain ⟨l0, hg0, hf0⟩ := roundMatches_elim env serverName _ _ _ h1
  obtain ⟨l1, hg1, hf1⟩ := roundMatches_elim env serverName _ _ _ h2
  obtain ⟨l2, hg2, hf2⟩ := roundMatches_elim env serverName _ _ _ h3
  obtain ⟨l3, hg3, hf3⟩ := roundMatches_elim env serverName _ _ _ h4
  have hhost : hostHintArg (some hHost) = some [hHost] := by simp [hostHintArg, hh]
  have hport : portHintArg (some hPort) = some [hPort] := by simp [portHintArg, hp]
  have hst : strTruthy (some hHost) = true := by simp [strTruthy, hh]
  have hnt : natTruthy (some hPort) = true := by simp [natTruthy, hp]
  constructor
  · simp [getServerInfo, getServerInfoT, fullScanTail, hhost, hport, hst, hnt,
      hg0, hf0, hg1, hf1, hg2, hf2, hg3, hf3]
  · simp [getServerInfo, getServerInfoT, fullScanTail, hhost, hport, hst, hnt,
      hg0, hf0]

/-- Witness for C2 in the environment `envA`: hints `x:1` are both wrong and the
record named `A` is only reachable by the full scan. -/
theorem resolver_fallback_completeness_witness :
    getServerInfo envA "A" (some "x") (some 1) true =
      Except.ok (some { name := some "A" }) ∧
    getServerInfo envA "A" (some "x") (some 1) false = Except.ok none :=
  resolver_fallback_completeness envA "A" "x" 1 { name := some "A" } []
    (by decide) (by decide) rfl rfl rfl rfl

/-- The stage-1 host argument is null or a singleton list. -/
theorem hostHintArg_shape (host : Option String) :
    hostHintArg host = none ∨ ∃ x, hostHintArg host = some [x] := by
  cases host with
  | none => exact Or.inl rfl
  | some s =>
    by_cases h : s = ""
    · exact Or.inl (by simp [hostHintArg, h])
    · exact Or.inr ⟨s, by simp [hostHintArg, h]⟩

/-- With a successful server-list fetch, every round the resolver can issue (a
null IP list or a singleton one) succeeds. -/
theorem getServerList_ok_of_shape (env : Env) (s : String)
    (hs : env.fetchList = Except.ok s) (ips : Option (List String))
    (ports : Option (List Nat)) (hips : ips = none ∨ ∃ x, ips = some [x]) :
    ∃ l, getServerList env ips ports = Except.ok l := by
  rcases hips with rfl | ⟨x, rfl⟩
  · exact ⟨_, getServerList_fetched env s hs ports⟩
  · exact ⟨_, getServerList_supplied env x [] ports⟩

/-- With a successful server-list fetch, the resolver's tail never errors. -/
theorem fullScanTail_isOk (env : Env) (serverName : String) (host : Option String)
    (port : Option Nat) (fallback : Bool) (resultList : List ArkServerInfo)
    (prior : List Round) (s : String) (hs : env.fetchList = Except.ok s) :
    (fullScanTail env serverName host port fallback resultList prior).1.isOk = true := by
  unfold fullScanTail
  split
  · obtain ⟨l, hl⟩ := getServerList_ok_of_shape env s hs none none (Or.inl rfl)
    rw [hl]
    rfl
  · rfl

/-- C7 (amended). Error propagation policy: a supplied nonempty IP list never
errors; with a null IP list, `getServerList` succeeds when the server-list fetch
succeeds and propagates exactly the fetch's failure otherwise; and `getServerInfo`
(whose internal rounds use only null or singleton IP lists) never errors while the
fetch succeeds. The one exception the counterexample forces: an explicitly
supplied empty IP list rejects with the `reduce` TypeError. -/
theorem error_propagation (env : Env) :
    (∀ ip ips ports, (getServerList env (some (ip :: ips)) ports).isOk = true) ∧
    (∀ s ports, env.fetchList = Except.ok s → (getServerList env none ports).isOk = true) ∧
    (∀ e ports, env.fetchList = Except.error e → getServerList env none ports = Except.error e) ∧
    (∀ serverName host port fallback s, env.fetchList = Except.ok s →
      (getServerInfo env serverName host port fallback).isOk = true) := by
  refine ⟨?_, ?_, ?_, ?_⟩
  · intro ip ips ports
    rw [getServerList_supplied]
    rfl
  · intro s ports hs
    rw [getServerList_fetched env s hs ports]
    rfl
  · intro e ports he
    exact getServerList_fetch_error env e he ports
  · intro serverName host port fallback s hs
    unfold getServerInfo getServerInfoT
    obtain ⟨l0, h0⟩ := getServerList_ok_of_shape env s hs (hostHintArg host)
      (portHintArg port) (hostHintArg_shape host)
    rw [h0]
    show (if _ then _ else fullScanTail _ _ _ _ _ _ _).1.isOk = true
    split
    · obtain ⟨l1, h1⟩ := getServerList_ok_of_shape env s hs (some [host.getD ""]) none
        (Or.inr ⟨host.getD "", rfl⟩)
      rw [h1]
      show (if _ then _ else fullScanTail _ _ _ _ _ _ _).1.isOk = true
      split
      · obtain ⟨l2, h2⟩ := getServerList_ok_of_shape env s hs none (some [port.getD 0])
          (Or.inl rfl)
        rw [h2]
        exact fullScanTail_isOk env serverName host port fallback _ _ s hs
      · exact fullScanTail_isOk env serverName host port fallback _ _ s hs
    · exact fullScanTail_isOk env serverName host port fallback _ _ s hs

/-- Witness for C7 (amended) in `envA` (fetch succeeds) and `envBoom` (fetch
fails). -/
theorem error_propagation_witness :
    (getServerList envA (some ["a"]) none).isOk = true ∧
    (getServerList envA none none).isOk = true ∧
    getServerList envBoom none none = Except.error "boom" ∧
    (getServerInfo envA "A" (some "x") none true).isOk = true :=
  ⟨(error_propagation envA).1 "a" [] none,
   (error_propagation envA).2.1 "i1\ni2" none rfl,
   (error_propagation envBoom).2.2.1 "boom" none rfl,
   (error_propagation envA).2.2.2 "A" (some "x") none true "i1\ni2" rfl⟩

/-- C5. Resolver staging, matching and short-circuit: `getServerInfo` is exactly
the staged state machine of spec §4.3 — stages tried in the fixed order hinted,
host-only, port-only, full-scan; matching by exact equality on the record's
`name`; the first record of the first stage with any match returned; and no round
issued past the stage that matched (equality of the round traces). -/
theorem resolver_staging (env : Env) (serverName : String) (host : Option String)
    (port : Option Nat) (fallback : Bool) :
    getServerInfoT env serverName host port fallback =
      specResolver env serverName host port fallback := by
  unfold getServerInfoT specResolver
  rw [hostHintArg_eq host, portHintArg_eq port]
  cases hg0 : getServerList env (suppliedHosts host) (suppliedPorts port) with
  | error e => simp [roundMatches, hg0, Except.map]
  | ok l0 =>
    simp only [roundMatches, hg0, Except.map]
    cases hf0 : l0.filter (fun info => info.name == some serverName) with
    | cons r rs => simp [hf0, fullScanTail, if_length_pos_getElem]
    | nil =>
      cases fallback with
      | false => simp [hf0, fullScanTail]
      | true =>
        cases hhg : strTruthy host with
        | false =>
          cases hpg : natTruthy port with
          | false => simp [hf0, hhg, hpg, fullScanTail]
          | true =>
            cases hg4 : getServerList env none none with
            | error e =>
              simp [hf0, hhg, hpg, fullScanTail, specFullScan, roundMatches, hg4, Except.map]
            | ok l3 =>
              simp [hf0, hhg, hpg, fullScanTail, specFullScan, roundMatches, hg4, Except.map,
                if_length_pos_getElem]
        | true =>
          cases hpg : natTruthy port with
          | false =>
            cases hg4 : getServerList env none none with
            | error e =>
              simp [hf0, hhg, hpg, fullScanTail, specFullScan, roundMatches, hg4, Except.map]
            | ok l3 =>
              simp [hf0, hhg, hpg, fullScanTail, specFullScan, roundMatches, hg4, Except.map,
                if_length_pos_getElem]
          | true =>
            cases hg1 : getServerList env (some [host.getD ""]) none with
            | error e => simp [hf0, hhg, hpg, roundMatches, hg1, Except.map]
            | ok l1 =>
              simp only [hf0, hhg, hpg, roundMatches, hg1, Except.map]
              cases hf1 : l1.filter (fun info => info.name == some serverName) with
              | cons r rs =>
                simp [hf0, hf1, hhg, hpg, fullScanTail, if_length_pos_getElem]
              | nil =>
                cases hg2 : getServerList env none (some [port.getD 0]) with
                | error e => simp [hf0, hf1, hhg, hpg, roundMatches, hg2, Except.map]
                | ok l2 =>
                  simp only [roundMatches, hg2, Except.map]
                  cases hf2 : l2.filter (fun info => info.name == some serverName) with
                  | cons r rs =>
                    simp [hf0, hf1, hf2, hhg, hpg, fullScanTail, if_length_pos_getElem]
                  | nil =>
                    cases hg4 : getServerList env none none with
                    | error e =>
                      simp [hf0, hf1, hf2, hhg, hpg, fullScanTail, specFullScan,
                        roundMatches, hg4, Except.map]
                    | ok l3 =>
                      simp [hf0, hf1, hf2, hhg, hpg, fullScanTail, specFullScan,
                        roundMatches, hg4, Except.map, if_length_pos_getElem]

end Arkservers
